import Mathlib

/-!
# Verification of the qi-irida-uploader core

Shallow embedding of the repository's core logic:

* `Parser.factory` is translated directly from `src/parsers/parsers.py`.
* `validate_sample_sheet` embeds `parsers/miniseq/validation.py`; that file is
  not present under `src/`, so it is modelled from the specification's
  structural-validation pass, with its behaviour pinned down by the four unit
  tests in `src/tests/parsers/miniseq/test_validation.py` (which exercise it
  through a mocked CSV reader).
* `prepare_and_validate_for_upload`, `upload_sequencing_run` and
  `send_project` embed `core/api_handler.py`; that file is also not present
  under `src/`, so they are modelled from the specification (§4.3, §4.4, §6),
  with behaviour pinned down by `src/tests/core/test_api_handler.py`.

Remote (IRIDA) API calls are represented by an explicit call trace: every
remote operation performed is appended, in order, to a `List ApiCall`.  The
answers of the remote side are given by an oracle (`IridaApi`) whose
state-query functions may depend on the full history of previous calls, which
is exactly the power the mocked api instances in the tests have (their
`side_effect` lists key answers by call order).
-/

/-- The error taxonomy of the uploader: structural sample-sheet errors,
remote-resource errors (IRIDA), and local model-validation errors. -/
inductive UploaderError where
  | sampleSheetError (message : String)
  | iridaResourceError (message : String) (resource_id : String)
  | modelValidationError (message : String)
deriving DecidableEq, Repr

/-- A validation result: an append-only list of collected errors. -/
structure ValidationResult where
  error_list : List UploaderError
deriving DecidableEq, Repr

/-- `is_valid()` from the model: no errors were collected. -/
def ValidationResult.is_valid (r : ValidationResult) : Bool :=
  r.error_list.isEmpty

/-- `error_count()` from the model: the number of collected errors. -/
def ValidationResult.error_count (r : ValidationResult) : Nat :=
  r.error_list.length

/-- A sample of a sequencing run.  Only the fields the core logic touches are
kept: the sample name (its remote identifier) and the sequence-file reference
that an external collaborator fills in before upload. -/
structure Sample where
  sample_name : String
  sequence_file : Option String
deriving DecidableEq, Repr

/-- A project: a remote grouping key plus its ordered list of samples. -/
structure Project where
  id : String
  sample_list : List Sample
deriving DecidableEq, Repr

/-- A sequencing run: opaque metadata (passed verbatim to the remote side)
plus the ordered list of projects. -/
structure SequencingRun where
  metadata : String
  project_list : List Project
deriving DecidableEq, Repr

/-- One remote API call, with the arguments it was given.  The orchestration
functions below produce the ordered list of calls they perform. -/
inductive ApiCall where
  | project_exists (project_id : String)
  | sample_exists (sample_name : String) (project_id : String)
  | send_sample (sample_name : String) (project_id : String)
  | create_seq_run (run_metadata : String)
  | set_seq_run_uploading (run_id : Nat)
  | send_sequence_files (project_id : String) (sample_name : String)
      (sequence_file : Option String) (upload_id : Nat)
  | set_seq_run_complete (run_id : Nat)
  | set_seq_run_error (run_id : Nat)
deriving DecidableEq, Repr

/-- The remote API instance (the object returned by `_get_api_instance`).
The existence/creation queries used during validation receive the history of
calls made so far, so one oracle can answer differently on repeated queries —
the mocked api instances in the tests do exactly that via `side_effect`
lists.  The upload-phase operations are answer-per-argument; a failing
operation returns `.error e`, modelling a raised exception. -/
structure IridaApi where
  project_exists : List ApiCall → String → Bool
  sample_exists : List ApiCall → String → String → Bool
  send_sample : List ApiCall → String → String → Bool
  create_seq_run : String → Except UploaderError Nat
  set_seq_run_uploading : Nat → Except UploaderError Bool
  send_sequence_files : String → String → Option String → Nat →
      Except UploaderError Bool
  set_seq_run_complete : Nat → Except UploaderError Bool
  set_seq_run_error : Nat → Except UploaderError Bool

/-- Parser kinds the factory can produce (`src/parsers/parsers.py`). -/
inductive ParserKind where
  | directory
  | miseq
  | directorypath
  | basemount
deriving DecidableEq, Repr

/-- `Parser.factory` from `src/parsers/parsers.py`: a string-keyed
constructor lookup; an unknown `parser_type` raises an `AssertionError`
naming the given string (modelled as `.error` carrying the message). -/
def Parser.factory (parser_type : String) : Except String ParserKind :=
  if parser_type = "directory" then .ok .directory
  else if parser_type = "miseq" then .ok .miseq
  else if parser_type = "directorypath" then .ok .directorypath
  else if parser_type = "basemount" then .ok .basemount
  else .error ("Bad parser creation, invalid parser_type given: " ++ parser_type)

deriving instance DecidableEq for Except

/-! ## Sample-sheet structural validation (miniseq)

Modelled from the spec: `parsers/miniseq/validation.py` is not under `src/`;
`validate_sample_sheet` below follows the specification's structural pass
(§4.3) as pinned down by the four tests of
`src/tests/parsers/miniseq/test_validation.py`.  The validator scans the CSV
rows of the sheet keeping flags: whether a `[Data]` section marker was seen,
whether a `[Header]` section marker was seen, and whether the row following a
`[Data]` marker contained all required data-header columns (`Sample_ID`,
`Sample_Name`, `Sample_Project`).  One `SampleSheetError` is collected per
missing piece.  (The tests show the `[Header]` section is required: the
no-`[Header]` sheet is invalid with exactly one error, and the sheet with no
`[Data]` section at all yields exactly two errors — missing data headers and
missing `[Data]` section.) -/

/-- The flag state threaded through the scan of the sheet's CSV rows. -/
structure SheetFlags where
  data_sect_found : Bool
  header_sect_found : Bool
  check_data_headers : Bool
  found_sample_id : Bool
  found_sample_name : Bool
  found_sample_project : Bool
  all_data_headers_found : Bool
deriving DecidableEq, Repr

/-- Initial scan state: nothing found yet. -/
def initial_flags : SheetFlags :=
  ⟨false, false, false, false, false, false, false⟩

/-- Process one CSV row (a list of comma-separated fields) of the sheet. -/
def scan_line (st : SheetFlags) (line : List String) : SheetFlags :=
  if line.contains "[Data]" then
    { st with data_sect_found := true, check_data_headers := true }
  else if line.contains "[Header]" then
    { st with header_sect_found := true }
  else if st.check_data_headers then
    let fid := st.found_sample_id || line.contains "Sample_ID"
    let fname := st.found_sample_name || line.contains "Sample_Name"
    let fproj := st.found_sample_project || line.contains "Sample_Project"
    { st with
      found_sample_id := fid,
      found_sample_name := fname,
      found_sample_project := fproj,
      all_data_headers_found := st.all_data_headers_found || (fid && fname && fproj),
      check_data_headers := false }
  else st

/-- Error message for the required data-header columns not all being found. -/
def data_headers_message : String :=
  "Missing required data headers in the [Data] section"

/-- Error message for a missing `[Data]` section. -/
def data_section_message : String :=
  "[Data] section not found in the sample sheet"

/-- Error message for a missing `[Header]` section. -/
def header_section_message : String :=
  "[Header] section not found in the sample sheet"

/-- Modelled from the spec: `validate_sample_sheet` of
`parsers/miniseq/validation.py` (absent from `src/`), behaviour fixed by
`src/tests/parsers/miniseq/test_validation.py`.  The sheet is given as its
CSV rows (what `get_csv_reader` yields).  Scans all rows, then collects one
`SampleSheetError` for each missing structural piece. -/
def validate_sample_sheet (rows : List (List String)) : ValidationResult :=
  let st := rows.foldl scan_line initial_flags
  let e1 : List UploaderError :=
    if st.all_data_headers_found then [] else [.sampleSheetError data_headers_message]
  let e2 : List UploaderError :=
    if st.data_sect_found then [] else [.sampleSheetError data_section_message]
  let e3 : List UploaderError :=
    if st.header_sect_found then [] else [.sampleSheetError header_section_message]
  ⟨e1 ++ e2 ++ e3⟩

/-! ## Remote validation: `prepare_and_validate_for_upload`

Modelled from the spec: `core/api_handler.py` is not under `src/`; the
functions below follow the specification's semantic validation pass (§4.3)
and upload protocol (§4.4), with behaviour pinned down by
`src/tests/core/test_api_handler.py`.  Each function returns, besides its
result, the ordered trace of remote calls it performed. -/

/-- The state threaded through the remote-existence validation pass:
the trace of remote calls made so far and the errors collected so far
(both append-only, in discovery order). -/
structure VState where
  trace : List ApiCall
  errors : List UploaderError
deriving DecidableEq, Repr

/-- Error message used when a project does not exist on IRIDA. -/
def project_missing_message : String := "Project does not exist on IRIDA"

/-- Error message used when a sample could not be created on IRIDA. -/
def sample_missing_message : String := "Could not send sample to IRIDA"

/-- Validate one sample of an existing project (spec §4.3 step 2): query
`sample_exists`; if absent, `send_sample` (its return value is ignored:
existence is ground truth) and re-query `sample_exists`; if still absent,
collect one `IridaResourceError` for the sample. -/
def validate_sample (api : IridaApi) (project_id : String) (s : Sample)
    (st : VState) : VState :=
  let q : ApiCall := .sample_exists s.sample_name project_id
  if api.sample_exists st.trace s.sample_name project_id then
    { st with trace := st.trace ++ [q] }
  else
    let st1 : VState := { st with trace := st.trace ++ [q] }
    let _sent := api.send_sample st1.trace s.sample_name project_id
    let st2 : VState :=
      { st1 with trace := st1.trace ++ [.send_sample s.sample_name project_id] }
    if api.sample_exists st2.trace s.sample_name project_id then
      { st2 with trace := st2.trace ++ [q] }
    else
      { st2 with
        trace := st2.trace ++ [q],
        errors := st2.errors ++ [.iridaResourceError sample_missing_message s.sample_name] }

/-- Validate one project (spec §4.3 step 1): query `project_exists`; if
absent, collect one `IridaResourceError` naming the project and skip all of
its samples; otherwise validate each sample in sheet order. -/
def validate_project (api : IridaApi) (p : Project) (st : VState) : VState :=
  if api.project_exists st.trace p.id then
    p.sample_list.foldl (fun acc s => validate_sample api p.id s acc)
      { st with trace := st.trace ++ [ApiCall.project_exists p.id] }
  else
    { st with
      trace := st.trace ++ [ApiCall.project_exists p.id],
      errors := st.errors ++ [.iridaResourceError project_missing_message p.id] }

/-- Modelled from the spec: `prepare_and_validate_for_upload` of
`core/api_handler.py` (absent from `src/`), spec §4.3, behaviour fixed by
`TestPrepareAndValidateForUpload` in `src/tests/core/test_api_handler.py`.
Validates every project (and the samples of existing projects) in sheet
order, collecting every error; returns the `ValidationResult` and the
ordered trace of remote calls. -/
def prepare_and_validate_for_upload (api : IridaApi) (run : SequencingRun) :
    ValidationResult × List ApiCall :=
  let st := run.project_list.foldl (fun acc p => validate_project api p acc) ⟨[], []⟩
  (⟨st.errors⟩, st.trace)

/-! ## Upload orchestration: `upload_sequencing_run` -/

/-- Transfer the sequence files of each sample of one project, in order,
stopping at the first failure (spec §4.4 step 3). -/
def send_files_for_samples (api : IridaApi) (run_id : Nat) (project_id : String) :
    List Sample → Except UploaderError Unit × List ApiCall
  | [] => (.ok (), [])
  | s :: rest =>
    let c : ApiCall := .send_sequence_files project_id s.sample_name s.sequence_file run_id
    match api.send_sequence_files project_id s.sample_name s.sequence_file run_id with
    | .error e => (.error e, [c])
    | .ok _ =>
      let r := send_files_for_samples api run_id project_id rest
      (r.1, c :: r.2)

/-- Transfer the sequence files of every project in sheet order, stopping at
the first failure. -/
def send_files_for_projects (api : IridaApi) (run_id : Nat) :
    List Project → Except UploaderError Unit × List ApiCall
  | [] => (.ok (), [])
  | p :: rest =>
    let r := send_files_for_samples api run_id p.id p.sample_list
    match r.1 with
    | .error e => (.error e, r.2)
    | .ok _ =>
      let r2 := send_files_for_projects api run_id rest
      (r2.1, r.2 ++ r2.2)

/-- The body of the upload's `try` block (spec §4.4 steps 2–4): set the run
status to uploading, transfer every sample's files in sheet order, then set
the run status to complete.  Stops at the first failing call. -/
def upload_run_body (api : IridaApi) (run : SequencingRun) (run_id : Nat) :
    Except UploaderError Unit × List ApiCall :=
  let c1 : ApiCall := .set_seq_run_uploading run_id
  match api.set_seq_run_uploading run_id with
  | .error e => (.error e, [c1])
  | .ok _ =>
    let r := send_files_for_projects api run_id run.project_list
    match r.1 with
    | .error e => (.error e, c1 :: r.2)
    | .ok _ =>
      match api.set_seq_run_complete run_id with
      | .error e => (.error e, c1 :: r.2 ++ [ApiCall.set_seq_run_complete run_id])
      | .ok _ => (.ok (), c1 :: r.2 ++ [ApiCall.set_seq_run_complete run_id])

/-- Modelled from the spec: `upload_sequencing_run` of `core/api_handler.py`
(absent from `src/`), spec §4.4, behaviour fixed by
`TestUploadSequencingRun` in `src/tests/core/test_api_handler.py`.
`create_seq_run` is performed outside the `try` block (a failure there
propagates with no status call, §4.4 step 1); any failure of a later step
triggers one `set_seq_run_error` call with the run id, after which the
original error is re-raised — unless the `set_seq_run_error` call itself
fails, in which case its error propagates in place of the original
(§4.4 step 5: best-effort, never swallowed). -/
def upload_sequencing_run (api : IridaApi) (run : SequencingRun) :
    Except UploaderError Unit × List ApiCall :=
  let c0 : ApiCall := .create_seq_run run.metadata
  match api.create_seq_run run.metadata with
  | .error e => (.error e, [c0])
  | .ok run_id =>
    let r := upload_run_body api run run_id
    match r.1 with
    | .ok _ => (.ok (), c0 :: r.2)
    | .error e =>
      match api.set_seq_run_error run_id with
      | .ok _ => (.error e, c0 :: r.2 ++ [ApiCall.set_seq_run_error run_id])
      | .error e2 => (.error e2, c0 :: r.2 ++ [ApiCall.set_seq_run_error run_id])

/-! ## Sending a standalone project: `send_project` -/

/-- The calls observable when sending a standalone project: the local
model-validation check and the remote `send_project` call. -/
inductive ProjectSendCall where
  | validate_send_project (p : Project)
  | send_project (p : Project)
deriving DecidableEq, Repr

/-- Error message raised when the local validation of a project fails. -/
def invalid_project_message : String :=
  "Project is invalid: check your project name and description"

/-- Modelled from the spec: `send_project` of `core/api_handler.py` (absent
from `src/`), spec §6 Remote-Project Port, behaviour fixed by
`TestSendProject` in `src/tests/core/test_api_handler.py`.  The local check
`model_validator.validate_send_project` runs first; a `ModelValidationError`
from it is converted into an `IridaResourceError` (callers see one uniform
resource-error family); only then is the remote `send_project` performed,
whose failure propagates as is. -/
def send_project (validate_send_project : Project → Except UploaderError Bool)
    (api_send_project : Project → Except UploaderError Bool) (p : Project) :
    Except UploaderError Bool × List ProjectSendCall :=
  match validate_send_project p with
  | .error (.modelValidationError _) =>
    (.error (.iridaResourceError invalid_project_message ""),
      [.validate_send_project p])
  | .error e => (.error e, [.validate_send_project p])
  | .ok _ =>
    match api_send_project p with
    | .error e => (.error e, [.validate_send_project p, .send_project p])
    | .ok b => (.ok b, [.validate_send_project p, .send_project p])

/-! ## Canonical call sequences -/

/-- The remote calls made while validating one sample list when every sample
already exists: one existence query per sample, in sheet order. -/
def sample_query_calls (project_id : String) (ss : List Sample) : List ApiCall :=
  ss.map fun s => ApiCall.sample_exists s.sample_name project_id

/-- The remote calls made while validating one project when the project and
all of its samples exist: one project query, then one query per sample. -/
def project_calls (p : Project) : List ApiCall :=
  ApiCall.project_exists p.id :: sample_query_calls p.id p.sample_list

/-- The remote calls made while validating a whole run when every project
and sample exists, in sheet order. -/
def validation_calls (run : SequencingRun) : List ApiCall :=
  run.project_list.flatMap project_calls

/-- The remote calls made before a distinguished sample is reached, when
every earlier project and sample exists: the canonical calls of the earlier
projects, the distinguished project's existence query, and one query per
earlier sample of that project. -/
def lead_calls (l1 : List Project) (p : Project) (m1 : List Sample) :
    List ApiCall :=
  l1.flatMap project_calls ++
    (ApiCall.project_exists p.id :: sample_query_calls p.id m1)

/-- The file-transfer calls of a successful upload: one
`send_sequence_files` per sample, in sheet order, with the
`(project_id, sample_name, sequence_file, upload_id)` tuple. -/
def upload_file_calls (run_id : Nat) (run : SequencingRun) : List ApiCall :=
  run.project_list.flatMap fun p =>
    p.sample_list.map fun s =>
      ApiCall.send_sequence_files p.id s.sample_name s.sequence_file run_id

/-! ## Concrete fixtures (used by witnesses and counterexamples)

These mirror the fixture data of the repository's tests: the run parsed from
`fake_ngs_data/SampleSheet.csv` (project "6" with samples 01-1111, 02-2222,
03-3333) and the sheets built inline by the miniseq validation tests. -/

/-- First sample of the test run. -/
def sample_one : Sample := { sample_name := "01-1111", sequence_file := some "mock_sample" }

/-- Second sample of the test run. -/
def sample_two : Sample := { sample_name := "02-2222", sequence_file := some "mock_sample" }

/-- Third sample of the test run. -/
def sample_three : Sample := { sample_name := "03-3333", sequence_file := some "mock_sample" }

/-- The single project of the test run. -/
def fake_project : Project :=
  { id := "6", sample_list := [sample_one, sample_two, sample_three] }

/-- The sequencing run of the api-handler tests: one project `"6"` with
three samples, each with a located sequence file. -/
def fake_run : SequencingRun :=
  { metadata := "run metadata", project_list := [fake_project] }

/-- A remote api on which every call succeeds. -/
def mock_api : IridaApi :=
  { project_exists := fun _ _ => true,
    sample_exists := fun _ _ _ => true,
    send_sample := fun _ _ _ => true,
    create_seq_run := fun _ => .ok 55,
    set_seq_run_uploading := fun _ => .ok true,
    send_sequence_files := fun _ _ _ _ => .ok true,
    set_seq_run_complete := fun _ => .ok true,
    set_seq_run_error := fun _ => .ok true }

/-- An api on which no project exists. -/
def api_project_missing : IridaApi :=
  { mock_api with project_exists := fun _ _ => false }

/-- An api on which sample `03-3333` of project `"6"` does not exist until
it has been queried once (so it exists on the re-query after the send),
mirroring the `side_effect` list `[True, True, False, True]`. -/
def api_sample_recovered : IridaApi :=
  { mock_api with
    sample_exists := fun h n pid =>
      if n = "03-3333" ∧ pid = "6" then
        decide (1 ≤ h.count (ApiCall.sample_exists "03-3333" "6"))
      else true }

/-- An api on which sample `03-3333` of project `"6"` never exists, even
after being sent, mirroring the `side_effect` list
`[True, True, False, False]`. -/
def api_sample_never : IridaApi :=
  { mock_api with
    sample_exists := fun _ n pid =>
      if n = "03-3333" ∧ pid = "6" then false else true }

/-- The original failure raised during the upload of the tests. -/
def boom : UploaderError := .iridaResourceError "Boom" ""

/-- A distinct failure raised by the error-status call itself. -/
def boom2 : UploaderError := .iridaResourceError "Boom2" ""

/-- An api on which setting the run status to uploading fails with `boom`
while the error-status call succeeds (the scenario of
`test_invalid_error_raised`). -/
def api_uploading_fails : IridaApi :=
  { mock_api with set_seq_run_uploading := fun _ => .error boom }

/-- An api on which setting the run status to uploading fails with `boom`
and the error-status call itself fails with `boom2`. -/
def api_error_call_fails : IridaApi :=
  { mock_api with
    set_seq_run_uploading := fun _ => .error boom,
    set_seq_run_error := fun _ => .error boom2 }

/-- The sheet of `test_validate_sample_sheet_no_header`: `[Reads]` and a
complete `[Data]` section (header row with every required column and three
sample rows) but no `[Header]` section. -/
def rows_without_header_section : List (List String) :=
  [["[Reads]"], ["151"], ["151"], [],
   ["[Data]"],
   ["Sample_ID", "Sample_Name", "I7_Index_ID", "index", "I5_Index_ID", "index2",
    "Sample_Project"],
   ["15-0318-4004", "15-0318", "N701", "TAAGGCGA", "S502", "CTCTCTAT", "203"],
   ["15-0455-4004", "15-0455", "N701", "TAAGGCGA", "S503", "TATCCTCT", "203"],
   ["15-0462-4004", "15-0462", "N701", "TAAGGCGA", "S505", "GTAAGGAG", "203"]]

/-- The sheet of `test_validate_sample_sheet_no_data`: a `[Header]` section
and `[Reads]`, but no `[Data]` section at all. -/
def rows_without_data_section : List (List String) :=
  [["[Header]"],
   ["15-0318-4004", "15-0318", "N701", "TAAGGCGA", "S502", "CTCTCTAT", "203"],
   ["Local Run Manager", " 4004"],
   ["Experiment Name", " Some_Test_Data"],
   ["Date", " 2015-05-14"],
   ["Workflow", " GenerateFastQWorkflow"],
   [],
   ["[Reads]"], ["151"], ["151"]]

/-- A sheet with a `[Header]` section, a `[Data]` section marker and a data
header row carrying every required column, but zero sample data rows. -/
def rows_with_header_row_no_samples : List (List String) :=
  [["[Header]"], ["Local Run Manager Analysis Id", " 4004"], [],
   ["[Reads]"], ["151"], ["151"], [],
   ["[Data]"],
   ["Sample_ID", "Sample_Name", "I7_Index_ID", "index", "I5_Index_ID", "index2",
    "Sample_Project", ""]]


/-! ## Lemmas about the sample-sheet scan -/

/-- The `[Data]`-seen flag after one row: set exactly by rows containing a
`[Data]` field. -/
theorem scan_line_data_sect (st : SheetFlags) (l : List String) :
    (scan_line st l).data_sect_found = (st.data_sect_found || l.contains "[Data]") := by
  by_cases h1 : l.contains "[Data]" = true <;>
    by_cases h2 : l.contains "[Header]" = true <;>
      by_cases h3 : st.check_data_headers = true <;>
        simp_all [scan_line]

/-- The `[Header]`-seen flag after one row: set exactly by rows containing a
`[Header]` field (and no `[Data]` field). -/
theorem scan_line_header_sect (st : SheetFlags) (l : List String) :
    (scan_line st l).header_sect_found =
      (st.header_sect_found || (!l.contains "[Data]" && l.contains "[Header]")) := by
  by_cases h1 : l.contains "[Data]" = true <;>
    by_cases h2 : l.contains "[Header]" = true <;>
      by_cases h3 : st.check_data_headers = true <;>
        simp_all [scan_line]

/-- Once all data headers have been found, they stay found. -/
theorem scan_line_all_found_mono (st : SheetFlags) (l : List String)
    (h : st.all_data_headers_found = true) :
    (scan_line st l).all_data_headers_found = true := by
  by_cases h1 : l.contains "[Data]" = true <;>
    by_cases h2 : l.contains "[Header]" = true <;>
      by_cases h3 : st.check_data_headers = true <;>
        simp_all [scan_line]

/-- A row with a `[Data]` field arms the data-header check for the next row. -/
theorem scan_line_data_marker (st : SheetFlags) (l : List String)
    (h : l.contains "[Data]" = true) :
    (scan_line st l).check_data_headers = true := by
  simp_all [scan_line]

/-- A row scanned while the data-header check is armed, containing every
required data-header column, makes `all_data_headers_found` true. -/
theorem scan_line_header_row (st : SheetFlags) (l : List String)
    (hc : st.check_data_headers = true)
    (hld : l.contains "[Data]" = false) (hlh : l.contains "[Header]" = false)
    (hid : l.contains "Sample_ID" = true) (hn : l.contains "Sample_Name" = true)
    (hp : l.contains "Sample_Project" = true) :
    (scan_line st l).all_data_headers_found = true := by
  simp_all [scan_line]

/-- On a row with no `[Data]` field, an unarmed check stays unarmed and
headers not found stay not found. -/
theorem scan_line_no_data (st : SheetFlags) (l : List String)
    (hl : l.contains "[Data]" = false) (hc : st.check_data_headers = false)
    (ha : st.all_data_headers_found = false) :
    (scan_line st l).check_data_headers = false ∧
      (scan_line st l).all_data_headers_found = false := by
  by_cases h2 : l.contains "[Header]" = true <;> simp_all [scan_line]

/-- The `[Data]`-seen flag after the whole scan. -/
theorem foldl_scan_data_sect (rows : List (List String)) (st : SheetFlags) :
    (rows.foldl scan_line st).data_sect_found =
      (st.data_sect_found || rows.any fun l => l.contains "[Data]") := by
  induction rows generalizing st with
  | nil => simp
  | cons l rest ih =>
    rw [List.foldl_cons, ih, scan_line_data_sect]
    simp [Bool.or_assoc]

/-- The `[Header]`-seen flag after the whole scan. -/
theorem foldl_scan_header_sect (rows : List (List String)) (st : SheetFlags) :
    (rows.foldl scan_line st).header_sect_found =
      (st.header_sect_found ||
        rows.any fun l => !l.contains "[Data]" && l.contains "[Header]") := by
  induction rows generalizing st with
  | nil => simp
  | cons l rest ih =>
    rw [List.foldl_cons, ih, scan_line_header_sect]
    simp [Bool.or_assoc]

/-- Once all data headers have been found, the whole remaining scan keeps
them found. -/
theorem foldl_scan_all_found_mono (rows : List (List String)) (st : SheetFlags)
    (h : st.all_data_headers_found = true) :
    (rows.foldl scan_line st).all_data_headers_found = true := by
  induction rows generalizing st with
  | nil => simpa
  | cons l rest ih => exact ih _ (scan_line_all_found_mono st l h)

/-- If no row carries a `[Data]` field, the data headers are never checked,
hence never found. -/
theorem foldl_scan_no_data (rows : List (List String)) (st : SheetFlags)
    (h : ∀ l ∈ rows, l.contains "[Data]" = false)
    (hc : st.check_data_headers = false) (ha : st.all_data_headers_found = false) :
    (rows.foldl scan_line st).check_data_headers = false ∧
      (rows.foldl scan_line st).all_data_headers_found = false := by
  induction rows generalizing st with
  | nil => exact ⟨hc, ha⟩
  | cons l rest ih =>
    have hstep := scan_line_no_data st l (h l (List.mem_cons_self l rest)) hc ha
    exact ih _ (fun l' hl' => h l' (List.mem_cons_of_mem l hl')) hstep.1 hstep.2

/-- Unfolding of `validate_sample_sheet` in terms of the final flag state. -/
theorem validate_sample_sheet_eq (rows : List (List String)) :
    validate_sample_sheet rows =
      ⟨(if (rows.foldl scan_line initial_flags).all_data_headers_found then []
          else [.sampleSheetError data_headers_message]) ++
        ((if (rows.foldl scan_line initial_flags).data_sect_found then []
          else [.sampleSheetError data_section_message]) ++
          (if (rows.foldl scan_line initial_flags).header_sect_found then []
          else [.sampleSheetError header_section_message]))⟩ := by
  simp only [validate_sample_sheet, List.append_assoc]

/-! ## C7 / C8: structural validation of the sheet -/

/-- C7 (amended): a sheet whose `[Data]` marker is followed by a header row
with all required columns, with field rows but no `[Header]` section, is
**invalid** with exactly one `SampleSheetError` (the miniseq validator also
requires a `[Header]` section, as `test_validate_sample_sheet_no_header`
asserts). -/
theorem validate_sheet_missing_header_section
    (pre post : List (List String)) (dline hline : List String)
    (rows : List (List String))
    (hsplit : rows = pre ++ dline :: hline :: post)
    (hd : dline.contains "[Data]" = true)
    (hld : hline.contains "[Data]" = false)
    (hid : hline.contains "Sample_ID" = true)
    (hn : hline.contains "Sample_Name" = true)
    (hp : hline.contains "Sample_Project" = true)
    (hnohdr : ∀ l ∈ rows, l.contains "[Header]" = false) :
    validate_sample_sheet rows =
      ⟨[.sampleSheetError header_section_message]⟩ ∧
      (validate_sample_sheet rows).is_valid = false ∧
      (validate_sample_sheet rows).error_count = 1 := by
  subst hsplit
  have hlh : hline.contains "[Header]" = false := hnohdr hline (by simp)
  have hall : ((pre ++ dline :: hline :: post).foldl scan_line
      initial_flags).all_data_headers_found = true := by
    rw [List.foldl_append, List.foldl_cons, List.foldl_cons]
    exact foldl_scan_all_found_mono _ _
      (scan_line_header_row _ _ (scan_line_data_marker _ _ hd) hld hlh hid hn hp)
  have hdata : ((pre ++ dline :: hline :: post).foldl scan_line
      initial_flags).data_sect_found = true := by
    rw [foldl_scan_data_sect]
    simp only [initial_flags, Bool.false_or]
    rw [List.any_eq_true]
    exact ⟨dline, by simp, hd⟩
  have hhdr : ((pre ++ dline :: hline :: post).foldl scan_line
      initial_flags).header_sect_found = false := by
    rw [foldl_scan_header_sect]
    simp only [initial_flags, Bool.false_or]
    rw [List.any_eq_false]
    intro l hl
    have h := hnohdr l hl
    simp at h
    simp [h]
  have hmain : validate_sample_sheet (pre ++ dline :: hline :: post) =
      ⟨[.sampleSheetError header_section_message]⟩ := by
    rw [validate_sample_sheet_eq, hall, hdata, hhdr]
    simp
  exact ⟨hmain, by rw [hmain]; rfl, by rw [hmain]; rfl⟩

/-- C7 witness: the amended theorem applied to the exact sheet of
`test_validate_sample_sheet_no_header`. -/
theorem validate_sheet_missing_header_section_witness :
    validate_sample_sheet rows_without_header_section =
      ⟨[.sampleSheetError header_section_message]⟩ ∧
      (validate_sample_sheet rows_without_header_section).is_valid = false ∧
      (validate_sample_sheet rows_without_header_section).error_count = 1 :=
  validate_sheet_missing_header_section
    [["[Reads]"], ["151"], ["151"], []]
    [["15-0318-4004", "15-0318", "N701", "TAAGGCGA", "S502", "CTCTCTAT", "203"],
     ["15-0455-4004", "15-0455", "N701", "TAAGGCGA", "S503", "TATCCTCT", "203"],
     ["15-0462-4004", "15-0462", "N701", "TAAGGCGA", "S505", "GTAAGGAG", "203"]]
    ["[Data]"]
    ["Sample_ID", "Sample_Name", "I7_Index_ID", "index", "I5_Index_ID", "index2",
     "Sample_Project"]
    rows_without_header_section
    (by decide) (by decide) (by decide) (by decide) (by decide) (by decide)
    (by decide)

/-- C7 counterexample: the claim says a sheet with a complete `[Data]`
section is valid even absent a `[Header]` section; on the exact sheet of
`test_validate_sample_sheet_no_header` the validator is invalid (the test
itself asserts this). -/
theorem validate_sheet_no_header_not_valid :
    (validate_sample_sheet rows_without_header_section).is_valid = false ∧
      (validate_sample_sheet rows_without_header_section).error_list ≠ [] := by
  decide

/-- C8 (amended): a sheet with no `[Data]` section at all (hence neither a
data header row nor sample rows) and a `[Header]` section present is invalid
with exactly two `SampleSheetError`s: missing data headers and missing
`[Data]` section (the scenario of `test_validate_sample_sheet_no_data`). -/
theorem validate_sheet_no_data_section
    (rows : List (List String))
    (hnodata : ∀ l ∈ rows, l.contains "[Data]" = false)
    (hhdr : ∃ l, l ∈ rows ∧ l.contains "[Header]" = true) :
    validate_sample_sheet rows =
      ⟨[.sampleSheetError data_headers_message,
        .sampleSheetError data_section_message]⟩ ∧
      (validate_sample_sheet rows).is_valid = false ∧
      (validate_sample_sheet rows).error_count = 2 := by
  have hall := (foldl_scan_no_data rows initial_flags hnodata rfl rfl).2
  have hdata : (rows.foldl scan_line initial_flags).data_sect_found = false := by
    rw [foldl_scan_data_sect]
    simp only [initial_flags, Bool.false_or]
    rw [List.any_eq_false]
    intro l hl
    have h := hnodata l hl
    simp at h
    simp [h]
  have hh : (rows.foldl scan_line initial_flags).header_sect_found = true := by
    rw [foldl_scan_header_sect]
    simp only [initial_flags, Bool.false_or]
    rw [List.any_eq_true]
    obtain ⟨l, hl, hc⟩ := hhdr
    refine ⟨l, hl, ?_⟩
    have h1 := hnodata l hl
    simp at h1 hc
    simp [h1, hc]
  have hmain : validate_sample_sheet rows =
      ⟨[.sampleSheetError data_headers_message,
        .sampleSheetError data_section_message]⟩ := by
    rw [validate_sample_sheet_eq, hall, hdata, hh]
    simp
  exact ⟨hmain, by rw [hmain]; rfl, by rw [hmain]; rfl⟩

/-- C8 witness: the amended theorem applied to the exact sheet of
`test_validate_sample_sheet_no_data`. -/
theorem validate_sheet_no_data_section_witness :
    validate_sample_sheet rows_without_data_section =
      ⟨[.sampleSheetError data_headers_message,
        .sampleSheetError data_section_message]⟩ ∧
      (validate_sample_sheet rows_without_data_section).is_valid = false ∧
      (validate_sample_sheet rows_without_data_section).error_count = 2 :=
  validate_sheet_no_data_section rows_without_data_section (by decide)
    ⟨["[Header]"], by decide, by decide⟩

/-- C8 counterexample: the claim says a sheet with a `[Data]` header row but
zero sample data rows yields exactly two errors; on such a sheet (with its
`[Header]` present and every required column in the data header row) the
validator collects no error at all — it never checks for sample rows. -/
theorem validate_sheet_header_row_no_samples_valid :
    (validate_sample_sheet rows_with_header_row_no_samples).is_valid = true ∧
      (validate_sample_sheet rows_with_header_row_no_samples).error_count = 0 := by
  decide

/-! ## C10: the parser factory -/

/-- C10: `Parser.factory` returns the parser kind matching each of the four
known parser-type strings (case-sensitively) and raises an `AssertionError`
naming the given `parser_type` for every other string. -/
theorem factory_returns_known_parsers (parser_type : String) :
    (parser_type = "directory" → Parser.factory parser_type = .ok .directory) ∧
    (parser_type = "miseq" → Parser.factory parser_type = .ok .miseq) ∧
    (parser_type = "directorypath" →
      Parser.factory parser_type = .ok .directorypath) ∧
    (parser_type = "basemount" → Parser.factory parser_type = .ok .basemount) ∧
    (parser_type ≠ "directory" → parser_type ≠ "miseq" →
      parser_type ≠ "directorypath" → parser_type ≠ "basemount" →
      Parser.factory parser_type =
        .error ("Bad parser creation, invalid parser_type given: " ++ parser_type)) := by
  refine ⟨fun h => ?_, fun h => ?_, fun h => ?_, fun h => ?_,
    fun h1 h2 h3 h4 => ?_⟩
  · subst h; decide
  · subst h; decide
  · subst h; decide
  · subst h; decide
  · simp [Parser.factory, h1, h2, h3, h4]

/-- C10 witness: the factory at a known parser type and at an unknown,
differently-cased one. -/
theorem factory_returns_known_parsers_witness :
    Parser.factory "basemount" = .ok .basemount ∧
    Parser.factory "Miseq" =
      .error ("Bad parser creation, invalid parser_type given: " ++ "Miseq") :=
  ⟨(factory_returns_known_parsers "basemount").2.2.2.1 rfl,
   (factory_returns_known_parsers "Miseq").2.2.2.2 (by decide) (by decide)
     (by decide) (by decide)⟩

/-! ## C9: sending a standalone project -/

/-- C9: `send_project` runs `validate_send_project` exactly once, before any
network call; a `ModelValidationError` from the local check surfaces as an
`IridaResourceError` (never as a `ModelValidationError`); an
`IridaResourceError` of the remote call propagates unchanged — one uniform
resource-error family. -/
theorem send_project_uniform_errors
    (validate_send_project api_send : Project → Except UploaderError Bool)
    (p : Project) :
    ((send_project validate_send_project api_send p).2.count
        (ProjectSendCall.validate_send_project p) = 1 ∧
      ((send_project validate_send_project api_send p).2 =
          [.validate_send_project p] ∨
        (send_project validate_send_project api_send p).2 =
          [.validate_send_project p, .send_project p])) ∧
    (∀ m, validate_send_project p = .error (.modelValidationError m) →
      send_project validate_send_project api_send p =
        (.error (.iridaResourceError invalid_project_message ""),
          [.validate_send_project p])) ∧
    (∀ b e, validate_send_project p = .ok b → api_send p = .error e →
      send_project validate_send_project api_send p =
        (.error e, [.validate_send_project p, .send_project p])) := by
  refine ⟨?_, fun m hm => by simp [send_project, hm],
    fun b e hb he => by simp [send_project, hb, he]⟩
  rcases hv : validate_send_project p with e | b
  · rcases e with ⟨m⟩ | ⟨m, r⟩ | ⟨m⟩ <;>
      simp [send_project, hv, List.count_cons]
  · rcases hs : api_send p with e | b2 <;>
      simp [send_project, hv, hs, List.count_cons]

/-- C9 witness: a failing local validation is surfaced as an
`IridaResourceError`, and a failing remote send propagates unchanged. -/
theorem send_project_uniform_errors_witness :
    send_project (fun _ => .error (.modelValidationError "BOOM"))
        (fun _ => .ok true) ⟨"p", []⟩ =
      (.error (.iridaResourceError invalid_project_message ""),
        [.validate_send_project ⟨"p", []⟩]) ∧
    send_project (fun _ => .ok true)
        (fun _ => .error (.iridaResourceError "BOOM" "r")) ⟨"p", []⟩ =
      (.error (.iridaResourceError "BOOM" "r"),
        [.validate_send_project ⟨"p", []⟩, .send_project ⟨"p", []⟩]) :=
  ⟨(send_project_uniform_errors _ _ _).2.1 "BOOM" rfl,
   (send_project_uniform_errors _ _ _).2.2 true (.iridaResourceError "BOOM" "r")
     rfl rfl⟩

/-! ## Lemmas about the upload orchestration -/

/-- When every transfer succeeds, one file-transfer call is made per sample,
in order. -/
theorem send_files_for_samples_ok (api : IridaApi) (rid : Nat) (pid : String)
    (ss : List Sample)
    (h : ∀ n f, ∃ b, api.send_sequence_files pid n f rid = .ok b) :
    send_files_for_samples api rid pid ss =
      (.ok (), ss.map fun s =>
        ApiCall.send_sequence_files pid s.sample_name s.sequence_file rid) := by
  induction ss with
  | nil => rfl
  | cons s rest ih =>
    obtain ⟨b, hb⟩ := h s.sample_name s.sequence_file
    simp [send_files_for_samples, hb, ih]

/-- When every transfer succeeds, the projects' transfers happen in sheet
order, one call per sample. -/
theorem send_files_for_projects_ok (api : IridaApi) (rid : Nat)
    (ps : List Project)
    (h : ∀ pid n f, ∃ b, api.send_sequence_files pid n f rid = .ok b) :
    send_files_for_projects api rid ps =
      (.ok (), ps.flatMap fun p => p.sample_list.map fun s =>
        ApiCall.send_sequence_files p.id s.sample_name s.sequence_file rid) := by
  induction ps with
  | nil => rfl
  | cons p rest ih =>
    simp [send_files_for_projects,
      send_files_for_samples_ok api rid p.id p.sample_list (h p.id), ih]

/-- When every remote call succeeds, the upload body performs the uploading
status call, every transfer in order, then the complete status call. -/
theorem upload_run_body_ok (api : IridaApi) (run : SequencingRun) (rid : Nat)
    (hu : ∃ b, api.set_seq_run_uploading rid = .ok b)
    (hf : ∀ pid n f, ∃ b, api.send_sequence_files pid n f rid = .ok b)
    (hcomp : ∃ b, api.set_seq_run_complete rid = .ok b) :
    upload_run_body api run rid =
      (.ok (), ApiCall.set_seq_run_uploading rid ::
        upload_file_calls rid run ++ [ApiCall.set_seq_run_complete rid]) := by
  obtain ⟨b1, h1⟩ := hu
  obtain ⟨b2, h2⟩ := hcomp
  simp [upload_run_body, h1, h2,
    send_files_for_projects_ok api rid run.project_list hf, upload_file_calls]

/-- Every call of `upload_file_calls` is a file transfer. -/
theorem mem_upload_file_calls {c : ApiCall} {rid : Nat} {run : SequencingRun}
    (h : c ∈ upload_file_calls rid run) :
    ∃ pid n f, c = ApiCall.send_sequence_files pid n f rid := by
  simp only [upload_file_calls, List.mem_flatMap, List.mem_map] at h
  obtain ⟨p, _, s, _, rfl⟩ := h
  exact ⟨_, _, _, rfl⟩

/-- `upload_file_calls` contains no call that is not a file transfer. -/
theorem count_non_send_upload_file_calls (rid : Nat) (run : SequencingRun)
    (c : ApiCall) (h : ∀ pid n f, c ≠ ApiCall.send_sequence_files pid n f rid) :
    (upload_file_calls rid run).count c = 0 := by
  rw [List.count_eq_zero]
  intro hmem
  obtain ⟨pid, n, f, hc⟩ := mem_upload_file_calls hmem
  exact h pid n f hc

/-- Every call in a sample-transfer trace is a file transfer for the given
project and run id. -/
theorem send_files_for_samples_calls (api : IridaApi) (rid : Nat) (pid : String)
    (ss : List Sample) :
    ∀ c ∈ (send_files_for_samples api rid pid ss).2,
      ∃ n f, c = ApiCall.send_sequence_files pid n f rid := by
  induction ss with
  | nil => simp [send_files_for_samples]
  | cons s rest ih =>
    intro c hc
    rcases hr : api.send_sequence_files pid s.sample_name s.sequence_file rid with e | b
    · simp [send_files_for_samples, hr] at hc
      exact ⟨_, _, hc⟩
    · simp [send_files_for_samples, hr] at hc
      rcases hc with rfl | hc
      · exact ⟨_, _, rfl⟩
      · exact ih c hc

/-- Every call in a project-transfer trace is a file transfer for the given
run id. -/
theorem send_files_for_projects_calls (api : IridaApi) (rid : Nat)
    (ps : List Project) :
    ∀ c ∈ (send_files_for_projects api rid ps).2,
      ∃ pid n f, c = ApiCall.send_sequence_files pid n f rid := by
  induction ps with
  | nil => simp [send_files_for_projects]
  | cons p rest ih =>
    intro c hc
    rcases hr : (send_files_for_samples api rid p.id p.sample_list).1 with e | u
    · simp [send_files_for_projects, hr] at hc
      obtain ⟨n, f, rfl⟩ := send_files_for_samples_calls api rid p.id p.sample_list c hc
      exact ⟨_, _, _, rfl⟩
    · simp [send_files_for_projects, hr] at hc
      rcases hc with hc | hc
      · obtain ⟨n, f, rfl⟩ := send_files_for_samples_calls api rid p.id p.sample_list c hc
        exact ⟨_, _, _, rfl⟩
      · exact ih c hc

/-- Every call in the upload body's trace is the uploading status call, a
file transfer, or the complete status call — never `set_seq_run_error`. -/
theorem upload_run_body_calls (api : IridaApi) (run : SequencingRun) (rid : Nat) :
    ∀ c ∈ (upload_run_body api run rid).2,
      c = ApiCall.set_seq_run_uploading rid ∨
        (∃ pid n f, c = ApiCall.send_sequence_files pid n f rid) ∨
        c = ApiCall.set_seq_run_complete rid := by
  intro c hc
  rcases h1 : api.set_seq_run_uploading rid with e | b
  · simp [upload_run_body, h1] at hc
    exact Or.inl hc
  · rcases h2 : (send_files_for_projects api rid run.project_list).1 with e | u
    · simp [upload_run_body, h1, h2] at hc
      rcases hc with rfl | hc
      · exact Or.inl rfl
      · exact Or.inr (Or.inl (send_files_for_projects_calls api rid run.project_list c hc))
    · rcases h3 : api.set_seq_run_complete rid with e | b2 <;>
        simp [upload_run_body, h1, h2, h3] at hc <;>
        rcases hc with rfl | hc | rfl
      · exact Or.inl rfl
      · exact Or.inr (Or.inl (send_files_for_projects_calls api rid run.project_list c hc))
      · exact Or.inr (Or.inr rfl)
      · exact Or.inl rfl
      · exact Or.inr (Or.inl (send_files_for_projects_calls api rid run.project_list c hc))
      · exact Or.inr (Or.inr rfl)

/-- The upload body never calls `set_seq_run_error`. -/
theorem upload_run_body_no_error_call (api : IridaApi) (run : SequencingRun)
    (rid rid' : Nat) :
    (upload_run_body api run rid).2.count (ApiCall.set_seq_run_error rid') = 0 := by
  rw [List.count_eq_zero]
  intro hmem
  rcases upload_run_body_calls api run rid _ hmem with h | ⟨pid, n, f, h⟩ | h <;>
    simp at h

/-! ## C2: the upload happy path -/

/-- C2: when run creation succeeds and every later remote call succeeds,
the orchestrator calls `create_seq_run` once with the run's metadata, then
`set_seq_run_uploading` once with the returned run id, then
`send_sequence_files` once per sample in sheet order with the
`(project_id, sample_name, sequence_file, upload_id)` tuple, and finally
`set_seq_run_complete` once with the same run id. -/
theorem upload_happy_path (api : IridaApi) (run : SequencingRun) (run_id : Nat)
    (hc : api.create_seq_run run.metadata = .ok run_id)
    (hu : ∃ b, api.set_seq_run_uploading run_id = .ok b)
    (hf : ∀ pid n f, ∃ b, api.send_sequence_files pid n f run_id = .ok b)
    (hcomp : ∃ b, api.set_seq_run_complete run_id = .ok b) :
    upload_sequencing_run api run =
      (.ok (), ApiCall.create_seq_run run.metadata ::
        ApiCall.set_seq_run_uploading run_id ::
        upload_file_calls run_id run ++ [ApiCall.set_seq_run_complete run_id]) ∧
    (upload_sequencing_run api run).2.count
      (ApiCall.create_seq_run run.metadata) = 1 ∧
    (upload_sequencing_run api run).2.count
      (ApiCall.set_seq_run_uploading run_id) = 1 ∧
    (upload_sequencing_run api run).2.count
      (ApiCall.set_seq_run_complete run_id) = 1 := by
  have hbody := upload_run_body_ok api run run_id hu hf hcomp
  have hmain : upload_sequencing_run api run =
      (.ok (), ApiCall.create_seq_run run.metadata ::
        ApiCall.set_seq_run_uploading run_id ::
        upload_file_calls run_id run ++ [ApiCall.set_seq_run_complete run_id]) := by
    simp [upload_sequencing_run, hc, hbody]
  refine ⟨hmain, ?_, ?_, ?_⟩
  · rw [hmain]
    have z := count_non_send_upload_file_calls run_id run
      (ApiCall.create_seq_run run.metadata) (fun pid n f h => by simp at h)
    simp [List.count_cons, List.count_append, z]
  · rw [hmain]
    have z := count_non_send_upload_file_calls run_id run
      (ApiCall.set_seq_run_uploading run_id) (fun pid n f h => by simp at h)
    simp [List.count_cons, List.count_append, z]
  · rw [hmain]
    have z := count_non_send_upload_file_calls run_id run
      (ApiCall.set_seq_run_complete run_id) (fun pid n f h => by simp at h)
    simp [List.count_cons, List.count_append, z]

/-- C2 witness: the happy path on the test fixture run with an
all-succeeding api. -/
theorem upload_happy_path_witness :
    upload_sequencing_run mock_api fake_run =
      (.ok (), ApiCall.create_seq_run fake_run.metadata ::
        ApiCall.set_seq_run_uploading 55 ::
        upload_file_calls 55 fake_run ++ [ApiCall.set_seq_run_complete 55]) ∧
    (upload_sequencing_run mock_api fake_run).2.count
      (ApiCall.create_seq_run fake_run.metadata) = 1 ∧
    (upload_sequencing_run mock_api fake_run).2.count
      (ApiCall.set_seq_run_uploading 55) = 1 ∧
    (upload_sequencing_run mock_api fake_run).2.count
      (ApiCall.set_seq_run_complete 55) = 1 :=
  upload_happy_path mock_api fake_run 55 rfl ⟨true, rfl⟩
    (fun _ _ _ => ⟨true, rfl⟩) ⟨true, rfl⟩

/-! ## C1: the upload failure path -/

/-- C1 (amended): when run creation succeeds with a run id and any later
step fails with an error `e`, the orchestrator calls `set_seq_run_error`
exactly once with that run id; if that call succeeds, the original error `e`
is re-raised to the caller unmodified; if the `set_seq_run_error` call
itself fails, its own error propagates to the caller in place of the
original (best-effort error status, never swallowed — spec §4.4 step 5). -/
theorem upload_failure_sets_error_and_reraises (api : IridaApi)
    (run : SequencingRun) (run_id : Nat) (e : UploaderError)
    (hc : api.create_seq_run run.metadata = .ok run_id)
    (hb : (upload_run_body api run run_id).1 = .error e) :
    (upload_sequencing_run api run).2 =
      ApiCall.create_seq_run run.metadata :: (upload_run_body api run run_id).2
        ++ [ApiCall.set_seq_run_error run_id] ∧
    (upload_sequencing_run api run).2.count (ApiCall.set_seq_run_error run_id) = 1 ∧
    (∀ b, api.set_seq_run_error run_id = .ok b →
      (upload_sequencing_run api run).1 = .error e) ∧
    (∀ e2, api.set_seq_run_error run_id = .error e2 →
      (upload_sequencing_run api run).1 = .error e2) := by
  rcases hse : api.set_seq_run_error run_id with e2 | b
  · have hmain : upload_sequencing_run api run =
        (.error e2, ApiCall.create_seq_run run.metadata ::
          (upload_run_body api run run_id).2 ++ [ApiCall.set_seq_run_error run_id]) := by
      simp [upload_sequencing_run, hc, hb, hse]
    refine ⟨by rw [hmain], ?_, ?_, ?_⟩
    · rw [hmain]
      simp [List.count_cons, List.count_append, upload_run_body_no_error_call]
    · intro b hb2
      exact absurd hb2 (by simp)
    · intro e2' he2
      obtain rfl : e2 = e2' := by injection he2
      rw [hmain]
  · have hmain : upload_sequencing_run api run =
        (.error e, ApiCall.create_seq_run run.metadata ::
          (upload_run_body api run run_id).2 ++ [ApiCall.set_seq_run_error run_id]) := by
      simp [upload_sequencing_run, hc, hb, hse]
    refine ⟨by rw [hmain], ?_, ?_, ?_⟩
    · rw [hmain]
      simp [List.count_cons, List.count_append, upload_run_body_no_error_call]
    · intro b' hb2
      rw [hmain]
    · intro e2' he2
      exact absurd he2 (by simp)

/-- C1 witness: the scenario of `test_invalid_error_raised` — the uploading
status call fails with `boom`, the error-status call succeeds, the caller
observes `boom`. -/
theorem upload_failure_sets_error_and_reraises_witness :
    (upload_sequencing_run api_uploading_fails fake_run).2.count
      (ApiCall.set_seq_run_error 55) = 1 ∧
    (upload_sequencing_run api_uploading_fails fake_run).1 = .error boom :=
  ⟨(upload_failure_sets_error_and_reraises api_uploading_fails fake_run 55 boom
      rfl (by decide)).2.1,
   (upload_failure_sets_error_and_reraises api_uploading_fails fake_run 55 boom
      rfl (by decide)).2.2.1 true rfl⟩

/-- C1 counterexample: when the `set_seq_run_error` call itself fails, the
caller observes that failure (`boom2`), not the original triggering error
(`boom`) — the original error is not re-raised, though `set_seq_run_error`
was still called exactly once. -/
theorem upload_failure_original_error_not_reraised :
    (upload_sequencing_run api_error_call_fails fake_run).2.count
      (ApiCall.set_seq_run_error 55) = 1 ∧
    (upload_sequencing_run api_error_call_fails fake_run).1 = .error boom2 ∧
    (upload_sequencing_run api_error_call_fails fake_run).1 ≠ .error boom := by
  decide

/-! ## Lemmas about the remote validation pass -/

/-- Unfolding of `prepare_and_validate_for_upload` via the threaded state. -/
theorem prepare_eq (api : IridaApi) (run : SequencingRun) :
    prepare_and_validate_for_upload api run =
      (⟨(run.project_list.foldl (fun acc p => validate_project api p acc)
          ⟨[], []⟩).errors⟩,
        (run.project_list.foldl (fun acc p => validate_project api p acc)
          ⟨[], []⟩).trace) := rfl

/-- A sample that already exists contributes one query and no error. -/
theorem validate_sample_eq_exists (api : IridaApi) (pid : String) (s : Sample)
    (st : VState) (h : api.sample_exists st.trace s.sample_name pid = true) :
    validate_sample api pid s st =
      ⟨st.trace ++ [ApiCall.sample_exists s.sample_name pid], st.errors⟩ := by
  simp [validate_sample, h]

/-- A sample that is absent, is sent, and exists on the re-query contributes
query–send–query and no error. -/
theorem validate_sample_eq_recovered (api : IridaApi) (pid : String) (s : Sample)
    (st : VState)
    (h1 : api.sample_exists st.trace s.sample_name pid = false)
    (h2 : api.sample_exists (st.trace ++ [ApiCall.sample_exists s.sample_name pid,
      ApiCall.send_sample s.sample_name pid]) s.sample_name pid = true) :
    validate_sample api pid s st =
      ⟨st.trace ++ [ApiCall.sample_exists s.sample_name pid,
        ApiCall.send_sample s.sample_name pid,
        ApiCall.sample_exists s.sample_name pid], st.errors⟩ := by
  simp [validate_sample, h1, h2]

/-- A sample that is absent, is sent, and is still absent on the re-query
contributes query–send–query and one `IridaResourceError`. -/
theorem validate_sample_eq_failed (api : IridaApi) (pid : String) (s : Sample)
    (st : VState)
    (h1 : api.sample_exists st.trace s.sample_name pid = false)
    (h2 : api.sample_exists (st.trace ++ [ApiCall.sample_exists s.sample_name pid,
      ApiCall.send_sample s.sample_name pid]) s.sample_name pid = false) :
    validate_sample api pid s st =
      ⟨st.trace ++ [ApiCall.sample_exists s.sample_name pid,
        ApiCall.send_sample s.sample_name pid,
        ApiCall.sample_exists s.sample_name pid],
        st.errors ++ [.iridaResourceError sample_missing_message s.sample_name]⟩ := by
  simp [validate_sample, h1, h2]

/-- Folding over samples that all exist appends one query per sample, in
order, and no error. -/
theorem foldl_validate_sample_all_exist (api : IridaApi) (pid : String)
    (ss : List Sample)
    (h : ∀ tr s, s ∈ ss → api.sample_exists tr s.sample_name pid = true)
    (st : VState) :
    ss.foldl (fun acc s => validate_sample api pid s acc) st =
      ⟨st.trace ++ sample_query_calls pid ss, st.errors⟩ := by
  induction ss generalizing st with
  | nil => simp [sample_query_calls]
  | cons a as ih =>
    rw [List.foldl_cons,
      validate_sample_eq_exists api pid a st (h st.trace a (List.mem_cons_self a as)),
      ih (fun tr s hs => h tr s (List.mem_cons_of_mem a hs))]
    simp [sample_query_calls]

/-- A project that exists with all its samples existing appends its
canonical calls and no error. -/
theorem validate_project_all_exist (api : IridaApi) (p : Project)
    (hp : ∀ tr, api.project_exists tr p.id = true)
    (hs : ∀ tr s, s ∈ p.sample_list → api.sample_exists tr s.sample_name p.id = true)
    (st : VState) :
    validate_project api p st = ⟨st.trace ++ project_calls p, st.errors⟩ := by
  simp [validate_project, hp st.trace,
    foldl_validate_sample_all_exist api p.id p.sample_list hs, project_calls]

/-- Folding over projects that all exist, with all samples existing, appends
the canonical calls of every project in order and no error. -/
theorem foldl_validate_project_all_exist (api : IridaApi) (ps : List Project)
    (hp : ∀ tr p, p ∈ ps → api.project_exists tr p.id = true)
    (hs : ∀ tr p s, p ∈ ps → s ∈ p.sample_list →
      api.sample_exists tr s.sample_name p.id = true)
    (st : VState) :
    ps.foldl (fun acc p => validate_project api p acc) st =
      ⟨st.trace ++ ps.flatMap project_calls, st.errors⟩ := by
  induction ps generalizing st with
  | nil => simp
  | cons p rest ih =>
    rw [List.foldl_cons,
      validate_project_all_exist api p (fun tr => hp tr p (List.mem_cons_self p rest))
        (fun tr s hs' => hs tr p s (List.mem_cons_self p rest) hs') st,
      ih (fun tr q hq => hp tr q (List.mem_cons_of_mem p hq))
        (fun tr q s' hq hs' => hs tr q s' (List.mem_cons_of_mem p hq) hs')]
    simp [List.append_assoc]

/-- Every canonical call of a project is its existence query or one of its
sample queries. -/
theorem mem_project_calls {c : ApiCall} {p : Project} (h : c ∈ project_calls p) :
    c = ApiCall.project_exists p.id ∨ ∃ n, c = ApiCall.sample_exists n p.id := by
  simp only [project_calls, sample_query_calls, List.mem_cons, List.mem_map] at h
  rcases h with rfl | ⟨s, _, rfl⟩
  · exact Or.inl rfl
  · exact Or.inr ⟨s.sample_name, rfl⟩

/-- Projects whose id differs never contribute an existence query for `pid`
to the canonical calls. -/
theorem count_project_exists_flatMap_zero (l : List Project) (pid : String)
    (h : ∀ q ∈ l, q.id ≠ pid) :
    (l.flatMap project_calls).count (ApiCall.project_exists pid) = 0 := by
  rw [List.count_eq_zero]
  intro hmem
  rw [List.mem_flatMap] at hmem
  obtain ⟨q, hq, hd⟩ := hmem
  rcases mem_project_calls hd with h1 | ⟨n, h1⟩
  · injection h1 with h2
    exact h q hq h2.symm
  · simp at h1

/-- Projects whose id differs never contribute a sample query for `pid` to
the canonical calls. -/
theorem count_sample_exists_flatMap_zero (l : List Project) (n pid : String)
    (h : ∀ q ∈ l, q.id ≠ pid) :
    (l.flatMap project_calls).count (ApiCall.sample_exists n pid) = 0 := by
  rw [List.count_eq_zero]
  intro hmem
  rw [List.mem_flatMap] at hmem
  obtain ⟨q, hq, hd⟩ := hmem
  rcases mem_project_calls hd with h1 | ⟨n', h1⟩
  · simp at h1
  · injection h1 with h2 h3
    exact h q hq h3.symm

/-- The canonical calls never contain a `send_sample`. -/
theorem count_send_sample_flatMap_zero (l : List Project) (n pid : String) :
    (l.flatMap project_calls).count (ApiCall.send_sample n pid) = 0 := by
  rw [List.count_eq_zero]
  intro hmem
  rw [List.mem_flatMap] at hmem
  obtain ⟨q, hq, hd⟩ := hmem
  rcases mem_project_calls hd with h1 | ⟨n', h1⟩ <;> simp at h1

/-- Sample queries are never project-existence queries. -/
theorem count_project_exists_sqc_zero (pid pid' : String) (ss : List Sample) :
    (sample_query_calls pid ss).count (ApiCall.project_exists pid') = 0 := by
  rw [List.count_eq_zero]
  intro hmem
  simp only [sample_query_calls, List.mem_map] at hmem
  obtain ⟨s, _, h⟩ := hmem
  simp at h

/-- Sample queries are never sample creations. -/
theorem count_send_sample_sqc_zero (pid pid' : String) (ss : List Sample)
    (n : String) :
    (sample_query_calls pid ss).count (ApiCall.send_sample n pid') = 0 := by
  rw [List.count_eq_zero]
  intro hmem
  simp only [sample_query_calls, List.mem_map] at hmem
  obtain ⟨s, _, h⟩ := hmem
  simp at h

/-- Samples whose query differs (by name or project) contribute no query for
`(name, pid')`. -/
theorem count_sample_query_zero_of_ne (pid pid' : String) (ss : List Sample)
    (name : String)
    (h : ∀ t ∈ ss, ¬(t.sample_name = name ∧ pid = pid')) :
    (sample_query_calls pid ss).count (ApiCall.sample_exists name pid') = 0 := by
  rw [List.count_eq_zero]
  intro hmem
  simp only [sample_query_calls, List.mem_map] at hmem
  obtain ⟨t, ht, heq⟩ := hmem
  injection heq with h1 h2
  exact h t ht ⟨h1, h2⟩

/-- With pairwise-distinct sample names, the canonical queries of a sample
list contain each sample's query exactly once. -/
theorem count_sample_query_self (pid : String) (ss : List Sample) (s : Sample)
    (hnd : (ss.map Sample.sample_name).Nodup) (hmem : s ∈ ss) :
    (sample_query_calls pid ss).count
      (ApiCall.sample_exists s.sample_name pid) = 1 := by
  induction ss with
  | nil => simp at hmem
  | cons a rest ih =>
    rw [List.map_cons, List.nodup_cons] at hnd
    rcases List.mem_cons.mp hmem with rfl | hmem'
    · have hz : (sample_query_calls pid rest).count
          (ApiCall.sample_exists s.sample_name pid) = 0 := by
        apply count_sample_query_zero_of_ne
        intro t ht hc
        exact hnd.1 (hc.1 ▸ List.mem_map_of_mem Sample.sample_name ht)
      rw [sample_query_calls, List.map_cons, List.count_cons]
      rw [← sample_query_calls, hz]
      simp
    · have hne : a.sample_name ≠ s.sample_name := by
        intro hc
        exact hnd.1 (hc ▸ List.mem_map_of_mem Sample.sample_name hmem')
      rw [sample_query_calls, List.map_cons, List.count_cons]
      rw [← sample_query_calls, ih hnd.2 hmem']
      simp [hne]

/-- For lists with pairwise-distinct keys, an element in the middle has a
key different from every other element's. -/
theorem ne_of_map_nodup_middle {α β : Type} (f : α → β) {l₁ l₂ : List α}
    {a : α} (h : ((l₁ ++ a :: l₂).map f).Nodup) :
    (∀ b ∈ l₁, f b ≠ f a) ∧ (∀ b ∈ l₂, f b ≠ f a) := by
  rw [List.map_append, List.map_cons, List.nodup_append] at h
  obtain ⟨h1, h2, hdisj⟩ := h
  rw [List.nodup_cons] at h2
  constructor
  · intro b hb heq
    exact hdisj (List.mem_map_of_mem f hb) (by rw [heq]; exact List.mem_cons_self _ _)
  · intro b hb heq
    exact h2.1 (heq ▸ List.mem_map_of_mem f hb)

/-! ## C6: validation happy path -/

/-- C6: when every project and sample exists remotely, the validation result
is valid, the full call trace is exactly the canonical sheet-ordered trace,
and (given distinct project ids and per-project distinct sample names)
`project_exists` is queried exactly once per project and `sample_exists`
exactly once per sample. -/
theorem prepare_all_exist (api : IridaApi) (run : SequencingRun)
    (hp : ∀ tr pid, api.project_exists tr pid = true)
    (hs : ∀ tr n pid, api.sample_exists tr n pid = true)
    (hids : (run.project_list.map Project.id).Nodup)
    (hnames : ∀ p ∈ run.project_list, (p.sample_list.map Sample.sample_name).Nodup) :
    prepare_and_validate_for_upload api run = (⟨[]⟩, validation_calls run) ∧
    (prepare_and_validate_for_upload api run).1.is_valid = true ∧
    (∀ p ∈ run.project_list,
      (prepare_and_validate_for_upload api run).2.count
        (ApiCall.project_exists p.id) = 1) ∧
    (∀ p ∈ run.project_list, ∀ s ∈ p.sample_list,
      (prepare_and_validate_for_upload api run).2.count
        (ApiCall.sample_exists s.sample_name p.id) = 1) := by
  have hmain : prepare_and_validate_for_upload api run =
      (⟨[]⟩, validation_calls run) := by
    rw [prepare_eq, foldl_validate_project_all_exist api run.project_list
      (fun tr p _ => hp tr p.id) (fun tr p s _ _ => hs tr s.sample_name p.id)
      ⟨[], []⟩]
    simp [validation_calls]
  refine ⟨hmain, by rw [hmain]; rfl, ?_, ?_⟩
  · intro p hmem
    rw [hmain]
    show (validation_calls run).count (ApiCall.project_exists p.id) = 1
    obtain ⟨l₁, l₂, hsplit⟩ := List.append_of_mem hmem
    have hne := ne_of_map_nodup_middle Project.id (hsplit ▸ hids)
    rw [validation_calls, hsplit, List.flatMap_append, List.flatMap_cons,
      List.count_append, List.count_append,
      count_project_exists_flatMap_zero l₁ p.id hne.1,
      count_project_exists_flatMap_zero l₂ p.id hne.2,
      project_calls, List.count_cons, count_project_exists_sqc_zero]
    simp
  · intro p hmem s hsmem
    rw [hmain]
    show (validation_calls run).count
      (ApiCall.sample_exists s.sample_name p.id) = 1
    obtain ⟨l₁, l₂, hsplit⟩ := List.append_of_mem hmem
    have hne := ne_of_map_nodup_middle Project.id (hsplit ▸ hids)
    rw [validation_calls, hsplit, List.flatMap_append, List.flatMap_cons,
      List.count_append, List.count_append,
      count_sample_exists_flatMap_zero l₁ s.sample_name p.id hne.1,
      count_sample_exists_flatMap_zero l₂ s.sample_name p.id hne.2,
      project_calls, List.count_cons,
      count_sample_query_self p.id p.sample_list s (hnames p hmem) hsmem]
    simp

/-- C6 witness: the all-exist api on the test fixture run. -/
theorem prepare_all_exist_witness :
    prepare_and_validate_for_upload mock_api fake_run =
      (⟨[]⟩, validation_calls fake_run) ∧
    (prepare_and_validate_for_upload mock_api fake_run).1.is_valid = true ∧
    (prepare_and_validate_for_upload mock_api fake_run).2.count
      (ApiCall.project_exists fake_project.id) = 1 ∧
    (prepare_and_validate_for_upload mock_api fake_run).2.count
      (ApiCall.sample_exists sample_three.sample_name fake_project.id) = 1 :=
  have h := prepare_all_exist mock_api fake_run (fun _ _ => rfl)
    (fun _ _ _ => rfl) (by decide) (by decide)
  ⟨h.1, h.2.1, h.2.2.1 fake_project (by decide),
    h.2.2.2 fake_project (by decide) sample_three (by decide)⟩

/-! ## Shape lemmas for arbitrary oracles -/

/-- Whatever the oracle answers, validating one sample appends only calls
about that sample and, at most, one `IridaResourceError` naming it. -/
theorem validate_sample_shape (api : IridaApi) (pid : String) (s : Sample)
    (st : VState) :
    ∃ seg eseg, validate_sample api pid s st =
        ⟨st.trace ++ seg, st.errors ++ eseg⟩ ∧
      (∀ c ∈ seg, c = ApiCall.sample_exists s.sample_name pid ∨
        c = ApiCall.send_sample s.sample_name pid) ∧
      (∀ e ∈ eseg,
        e = UploaderError.iridaResourceError sample_missing_message s.sample_name) := by
  by_cases h1 : api.sample_exists st.trace s.sample_name pid = true
  · refine ⟨[ApiCall.sample_exists s.sample_name pid], [],
      by simpa using validate_sample_eq_exists api pid s st h1, ?_, by simp⟩
    intro c hc
    rw [List.mem_singleton] at hc
    exact Or.inl hc
  · rw [Bool.not_eq_true] at h1
    by_cases h2 : api.sample_exists (st.trace ++
        [ApiCall.sample_exists s.sample_name pid,
          ApiCall.send_sample s.sample_name pid]) s.sample_name pid = true
    · refine ⟨[ApiCall.sample_exists s.sample_name pid,
        ApiCall.send_sample s.sample_name pid,
        ApiCall.sample_exists s.sample_name pid], [],
        by simpa using validate_sample_eq_recovered api pid s st h1 h2, ?_, by simp⟩
      intro c hc
      simp only [List.mem_cons, List.not_mem_nil, or_false] at hc
      rcases hc with rfl | rfl | rfl
      · exact Or.inl rfl
      · exact Or.inr rfl
      · exact Or.inl rfl
    · rw [Bool.not_eq_true] at h2
      refine ⟨[ApiCall.sample_exists s.sample_name pid,
        ApiCall.send_sample s.sample_name pid,
        ApiCall.sample_exists s.sample_name pid],
        [UploaderError.iridaResourceError sample_missing_message s.sample_name],
        validate_sample_eq_failed api pid s st h1 h2, ?_, by simp⟩
      intro c hc
      simp only [List.mem_cons, List.not_mem_nil, or_false] at hc
      rcases hc with rfl | rfl | rfl
      · exact Or.inl rfl
      · exact Or.inr rfl
      · exact Or.inl rfl

/-- Whatever the oracle answers, validating a sample list appends only
sample queries/creations for the given project id and only sample errors. -/
theorem foldl_validate_sample_shape (api : IridaApi) (pid : String)
    (ss : List Sample) (st : VState) :
    ∃ seg eseg, ss.foldl (fun acc s => validate_sample api pid s acc) st =
        ⟨st.trace ++ seg, st.errors ++ eseg⟩ ∧
      (∀ c ∈ seg, ∃ n, c = ApiCall.sample_exists n pid ∨
        c = ApiCall.send_sample n pid) ∧
      (∀ e ∈ eseg, ∃ n,
        e = UploaderError.iridaResourceError sample_missing_message n) := by
  induction ss generalizing st with
  | nil => exact ⟨[], [], by simp, by simp, by simp⟩
  | cons s rest ih =>
    obtain ⟨seg1, eseg1, heq1, hc1, he1⟩ := validate_sample_shape api pid s st
    obtain ⟨seg2, eseg2, heq2, hc2, he2⟩ := ih ⟨st.trace ++ seg1, st.errors ++ eseg1⟩
    refine ⟨seg1 ++ seg2, eseg1 ++ eseg2, ?_, ?_, ?_⟩
    · rw [List.foldl_cons, heq1, heq2]
      simp [List.append_assoc]
    · intro c hc
      rcases List.mem_append.mp hc with h | h
      · rcases hc1 c h with rfl | rfl
        · exact ⟨s.sample_name, Or.inl rfl⟩
        · exact ⟨s.sample_name, Or.inr rfl⟩
      · exact hc2 c h
    · intro e he
      rcases List.mem_append.mp he with h | h
      · exact ⟨s.sample_name, he1 e h⟩
      · exact he2 e h

/-- Whatever the oracle answers, validating one project appends only calls
about that project and only errors naming the project or one of its
samples. -/
theorem validate_project_shape (api : IridaApi) (p : Project) (st : VState) :
    ∃ seg eseg, validate_project api p st = ⟨st.trace ++ seg, st.errors ++ eseg⟩ ∧
      (∀ c ∈ seg, c = ApiCall.project_exists p.id ∨
        ∃ n, c = ApiCall.sample_exists n p.id ∨ c = ApiCall.send_sample n p.id) ∧
      (∀ e ∈ eseg,
        e = UploaderError.iridaResourceError project_missing_message p.id ∨
        ∃ n, e = UploaderError.iridaResourceError sample_missing_message n) := by
  by_cases h : api.project_exists st.trace p.id = true
  · obtain ⟨seg, eseg, heq, hc, he⟩ := foldl_validate_sample_shape api p.id
      p.sample_list ⟨st.trace ++ [ApiCall.project_exists p.id], st.errors⟩
    refine ⟨ApiCall.project_exists p.id :: seg, eseg, ?_, ?_, ?_⟩
    · rw [validate_project, if_pos h, heq]
      simp [List.append_assoc]
    · intro c hc'
      rcases List.mem_cons.mp hc' with rfl | hmem
      · exact Or.inl rfl
      · exact Or.inr (hc c hmem)
    · intro e he'
      exact Or.inr (he e he')
  · rw [Bool.not_eq_true] at h
    refine ⟨[ApiCall.project_exists p.id],
      [UploaderError.iridaResourceError project_missing_message p.id], ?_, ?_, by simp⟩
    · simp [validate_project, h]
    · intro c hc
      rw [List.mem_singleton] at hc
      exact Or.inl hc

/-- Whatever the oracle answers, validating a project list appends only
calls attributable to projects of the list, and only errors naming such a
project or a sample. -/
theorem foldl_validate_project_shape (api : IridaApi) (ps : List Project)
    (st : VState) :
    ∃ seg eseg, ps.foldl (fun acc p => validate_project api p acc) st =
        ⟨st.trace ++ seg, st.errors ++ eseg⟩ ∧
      (∀ c ∈ seg, ∃ p', p' ∈ ps ∧ (c = ApiCall.project_exists p'.id ∨
        ∃ n, c = ApiCall.sample_exists n p'.id ∨ c = ApiCall.send_sample n p'.id)) ∧
      (∀ e ∈ eseg, ∃ p', p' ∈ ps ∧
        (e = UploaderError.iridaResourceError project_missing_message p'.id ∨
          ∃ n, e = UploaderError.iridaResourceError sample_missing_message n)) := by
  induction ps generalizing st with
  | nil => exact ⟨[], [], by simp, by simp, by simp⟩
  | cons p rest ih =>
    obtain ⟨seg1, eseg1, heq1, hc1, he1⟩ := validate_project_shape api p st
    obtain ⟨seg2, eseg2, heq2, hc2, he2⟩ := ih ⟨st.trace ++ seg1, st.errors ++ eseg1⟩
    refine ⟨seg1 ++ seg2, eseg1 ++ eseg2, ?_, ?_, ?_⟩
    · rw [List.foldl_cons, heq1, heq2]
      simp [List.append_assoc]
    · intro c hc
      rcases List.mem_append.mp hc with h | h
      · exact ⟨p, List.mem_cons_self p rest, hc1 c h⟩
      · obtain ⟨p', hp', hforms⟩ := hc2 c h
        exact ⟨p', List.mem_cons_of_mem p hp', hforms⟩
    · intro e he
      rcases List.mem_append.mp he with h | h
      · exact ⟨p, List.mem_cons_self p rest, he1 e h⟩
      · obtain ⟨p', hp', hforms⟩ := he2 e h
        exact ⟨p', List.mem_cons_of_mem p hp', hforms⟩

/-- Calls attributable to projects with a different id never mention `pid`. -/
theorem seg_calls_avoid (l : List Project) (pid : String)
    (hne : ∀ q ∈ l, q.id ≠ pid) (seg : List ApiCall)
    (hc : ∀ c ∈ seg, ∃ p', p' ∈ l ∧ (c = ApiCall.project_exists p'.id ∨
      ∃ n, c = ApiCall.sample_exists n p'.id ∨ c = ApiCall.send_sample n p'.id)) :
    (∀ n, ApiCall.sample_exists n pid ∉ seg) ∧
    (∀ n, ApiCall.send_sample n pid ∉ seg) ∧
    seg.count (ApiCall.project_exists pid) = 0 := by
  refine ⟨?_, ?_, ?_⟩
  · intro n hmem
    obtain ⟨p', hp', hforms⟩ := hc _ hmem
    rcases hforms with h | ⟨n', h | h⟩
    · simp at h
    · injection h with ha hb
      exact hne p' hp' hb.symm
    · simp at h
  · intro n hmem
    obtain ⟨p', hp', hforms⟩ := hc _ hmem
    rcases hforms with h | ⟨n', h | h⟩
    · simp at h
    · simp at h
    · injection h with ha hb
      exact hne p' hp' hb.symm
  · rw [List.count_eq_zero]
    intro hmem
    obtain ⟨p', hp', hforms⟩ := hc _ hmem
    rcases hforms with h | ⟨n', h | h⟩
    · injection h with ha
      exact hne p' hp' ha.symm
    · simp at h
    · simp at h

/-- Errors attributable to projects with a different id (or to samples)
never equal the missing-project error for `pid`. -/
theorem eseg_no_project_error (l : List Project) (pid : String)
    (hne : ∀ q ∈ l, q.id ≠ pid) (eseg : List UploaderError)
    (he : ∀ e ∈ eseg, ∃ p', p' ∈ l ∧
      (e = UploaderError.iridaResourceError project_missing_message p'.id ∨
        ∃ n, e = UploaderError.iridaResourceError sample_missing_message n)) :
    eseg.count
      (UploaderError.iridaResourceError project_missing_message pid) = 0 := by
  rw [List.count_eq_zero]
  intro hmem
  obtain ⟨p', hp', hforms⟩ := he _ hmem
  rcases hforms with h | ⟨n, h⟩
  · injection h with ha hb
    exact hne p' hp' hb.symm
  · injection h with ha hb
    exact absurd ha (by decide)

/-! ## C3: a missing project -/

/-- C3: when a project of the run does not exist remotely (and project ids
are pairwise distinct), the validation result is invalid and contains
exactly one `IridaResourceError` naming that project, no `sample_exists`
(or `send_sample`) call is ever made for that project's samples, and the
project is queried exactly once. -/
theorem prepare_project_missing (api : IridaApi) (run : SequencingRun)
    (p : Project) (hmem : p ∈ run.project_list)
    (hids : (run.project_list.map Project.id).Nodup)
    (hfalse : ∀ tr, api.project_exists tr p.id = false) :
    (prepare_and_validate_for_upload api run).1.is_valid = false ∧
    (prepare_and_validate_for_upload api run).1.error_list.count
      (UploaderError.iridaResourceError project_missing_message p.id) = 1 ∧
    (∀ n, ApiCall.sample_exists n p.id ∉
      (prepare_and_validate_for_upload api run).2) ∧
    (∀ n, ApiCall.send_sample n p.id ∉
      (prepare_and_validate_for_upload api run).2) ∧
    (prepare_and_validate_for_upload api run).2.count
      (ApiCall.project_exists p.id) = 1 := by
  obtain ⟨l₁, l₂, hsplit⟩ := List.append_of_mem hmem
  have hne := ne_of_map_nodup_middle Project.id (hsplit ▸ hids)
  obtain ⟨seg1, eseg1, heq1, hc1, he1⟩ :=
    foldl_validate_project_shape api l₁ ⟨[], []⟩
  have heq1' : l₁.foldl (fun acc p => validate_project api p acc) ⟨[], []⟩ =
      ⟨seg1, eseg1⟩ := by simpa using heq1
  have hstep : validate_project api p ⟨seg1, eseg1⟩ =
      ⟨seg1 ++ [ApiCall.project_exists p.id], eseg1 ++
        [UploaderError.iridaResourceError project_missing_message p.id]⟩ := by
    simp [validate_project, hfalse seg1]
  obtain ⟨seg2, eseg2, heq2, hc2, he2⟩ := foldl_validate_project_shape api l₂
    ⟨seg1 ++ [ApiCall.project_exists p.id], eseg1 ++
      [UploaderError.iridaResourceError project_missing_message p.id]⟩
  have hfull : prepare_and_validate_for_upload api run =
      (⟨(eseg1 ++ [UploaderError.iridaResourceError project_missing_message p.id])
          ++ eseg2⟩,
        (seg1 ++ [ApiCall.project_exists p.id]) ++ seg2) := by
    rw [prepare_eq, hsplit, List.foldl_append, List.foldl_cons, heq1', hstep, heq2]
  have a1 := seg_calls_avoid l₁ p.id hne.1 seg1 hc1
  have a2 := seg_calls_avoid l₂ p.id hne.2 seg2 hc2
  have z1 := eseg_no_project_error l₁ p.id hne.1 eseg1 he1
  have z2 := eseg_no_project_error l₂ p.id hne.2 eseg2 he2
  refine ⟨?_, ?_, ?_, ?_, ?_⟩
  · rw [hfull]
    simp [ValidationResult.is_valid]
  · rw [hfull]
    simp [List.count_append, z1, z2]
  · intro n
    rw [hfull]
    intro hmem'
    simp only [List.mem_append] at hmem'
    rcases hmem' with (h | h) | h
    · exact a1.1 n h
    · simp at h
    · exact a2.1 n h
  · intro n
    rw [hfull]
    intro hmem'
    simp only [List.mem_append] at hmem'
    rcases hmem' with (h | h) | h
    · exact a1.2.1 n h
    · simp at h
    · exact a2.2.1 n h
  · rw [hfull]
    simp [List.count_append, a1.2.2, a2.2.2]

/-- C3 witness: the missing-project api on the test fixture run, as in
`test_invalid_validation_project_does_not_exist`. -/
theorem prepare_project_missing_witness :
    (prepare_and_validate_for_upload api_project_missing fake_run).1.is_valid
      = false ∧
    (prepare_and_validate_for_upload api_project_missing fake_run).1.error_list.count
      (UploaderError.iridaResourceError project_missing_message
        fake_project.id) = 1 ∧
    ApiCall.sample_exists sample_one.sample_name fake_project.id ∉
      (prepare_and_validate_for_upload api_project_missing fake_run).2 ∧
    (prepare_and_validate_for_upload api_project_missing fake_run).2.count
      (ApiCall.project_exists fake_project.id) = 1 :=
  have h := prepare_project_missing api_project_missing fake_run fake_project
    (by decide) (by decide) (fun _ => rfl)
  ⟨h.1, h.2.1, h.2.2.1 sample_one.sample_name, h.2.2.2.2⟩

/-! ## The create-then-recheck path for one distinguished sample -/

/-- Splitting the run around one distinguished sample `s` of project `p`:
when every project exists and every other sample exists, the whole
validation reduces to the distinguished sample's step between a canonical
prefix and a canonical suffix. -/
theorem prepare_with_special_sample (api : IridaApi) (run : SequencingRun)
    (l₁ l₂ : List Project) (p : Project) (m₁ m₂ : List Sample) (s : Sample)
    (hrun : run.project_list = l₁ ++ p :: l₂)
    (hsamp : p.sample_list = m₁ ++ s :: m₂)
    (hids : (run.project_list.map Project.id).Nodup)
    (hnames : (p.sample_list.map Sample.sample_name).Nodup)
    (hproj : ∀ tr pid, api.project_exists tr pid = true)
    (hothers : ∀ tr n pid, ¬(n = s.sample_name ∧ pid = p.id) →
      api.sample_exists tr n pid = true) :
    prepare_and_validate_for_upload api run =
      (⟨(validate_sample api p.id s ⟨lead_calls l₁ p m₁, []⟩).errors⟩,
        (validate_sample api p.id s ⟨lead_calls l₁ p m₁, []⟩).trace ++
          (sample_query_calls p.id m₂ ++ l₂.flatMap project_calls)) := by
  have hneid := ne_of_map_nodup_middle Project.id (hrun ▸ hids)
  have hnename := ne_of_map_nodup_middle Sample.sample_name (hsamp ▸ hnames)
  have h1 : l₁.foldl (fun acc q => validate_project api q acc) ⟨[], []⟩ =
      ⟨l₁.flatMap project_calls, []⟩ := by
    rw [foldl_validate_project_all_exist api l₁ (fun tr q _ => hproj tr q.id)
      (fun tr q t hq ht => hothers tr t.sample_name q.id
        (fun hcon => hneid.1 q hq hcon.2))]
    simp
  have hm₁ : ∀ tr t, t ∈ m₁ → api.sample_exists tr t.sample_name p.id = true :=
    fun tr t ht => hothers tr t.sample_name p.id
      (fun hcon => hnename.1 t ht hcon.1)
  have h2 : validate_project api p ⟨l₁.flatMap project_calls, []⟩ =
      m₂.foldl (fun acc t => validate_sample api p.id t acc)
        (validate_sample api p.id s ⟨lead_calls l₁ p m₁, []⟩) := by
    unfold validate_project
    rw [if_pos (hproj (l₁.flatMap project_calls) p.id), hsamp,
      List.foldl_append, List.foldl_cons,
      foldl_validate_sample_all_exist api p.id m₁ hm₁]
    have harg : (⟨(l₁.flatMap project_calls ++ [ApiCall.project_exists p.id]) ++
        sample_query_calls p.id m₁, []⟩ : VState) =
        ⟨lead_calls l₁ p m₁, []⟩ := by
      simp [lead_calls]
    rw [← harg]
  have hm₂ : ∀ tr t, t ∈ m₂ → api.sample_exists tr t.sample_name p.id = true :=
    fun tr t ht => hothers tr t.sample_name p.id
      (fun hcon => hnename.2 t ht hcon.1)
  rw [prepare_eq, hrun, List.foldl_append, List.foldl_cons, h1, h2,
    foldl_validate_sample_all_exist api p.id m₂ hm₂,
    foldl_validate_project_all_exist api l₂ (fun tr q _ => hproj tr q.id)
      (fun tr q t hq ht => hothers tr t.sample_name q.id
        (fun hcon => hneid.2 q hq hcon.2))]
  simp [List.append_assoc]

/-- The canonical prefix contains no query for the distinguished sample. -/
theorem count_lead_calls_q_zero (l₁ : List Project) (p : Project)
    (m₁ : List Sample) (name : String)
    (hne1 : ∀ q ∈ l₁, q.id ≠ p.id)
    (hnem : ∀ t ∈ m₁, t.sample_name ≠ name) :
    (lead_calls l₁ p m₁).count (ApiCall.sample_exists name p.id) = 0 := by
  simp [lead_calls, List.count_append, List.count_cons,
    count_sample_exists_flatMap_zero l₁ name p.id hne1,
    count_sample_query_zero_of_ne p.id p.id m₁ name
      (fun t ht hcon => hnem t ht hcon.1)]

/-- The canonical prefix contains no sample creation at all. -/
theorem count_lead_calls_send_zero (l₁ : List Project) (p : Project)
    (m₁ : List Sample) (n pid : String) :
    (lead_calls l₁ p m₁).count (ApiCall.send_sample n pid) = 0 := by
  simp [lead_calls, List.count_append, List.count_cons,
    count_send_sample_flatMap_zero, count_send_sample_sqc_zero]

/-! ## C4: a sample created successfully during validation -/

/-- C4: when a sample is first reported absent, send succeeds in the sense
that the re-query reports existence, and everything else exists: the run's
validation result is valid, the sample is queried exactly twice (before and
after the send), and `send_sample` is called exactly once for it; the trace
equality places the send strictly between the two queries. -/
theorem prepare_sample_created_on_recheck (api : IridaApi)
    (run : SequencingRun) (l₁ l₂ : List Project) (p : Project)
    (m₁ m₂ : List Sample) (s : Sample)
    (hrun : run.project_list = l₁ ++ p :: l₂)
    (hsamp : p.sample_list = m₁ ++ s :: m₂)
    (hids : (run.project_list.map Project.id).Nodup)
    (hnames : (p.sample_list.map Sample.sample_name).Nodup)
    (hproj : ∀ tr pid, api.project_exists tr pid = true)
    (hothers : ∀ tr n pid, ¬(n = s.sample_name ∧ pid = p.id) →
      api.sample_exists tr n pid = true)
    (hfirst : ∀ tr, tr.count (ApiCall.sample_exists s.sample_name p.id) = 0 →
      api.sample_exists tr s.sample_name p.id = false)
    (hsecond : ∀ tr, tr.count (ApiCall.sample_exists s.sample_name p.id) = 1 →
      api.sample_exists tr s.sample_name p.id = true) :
    prepare_and_validate_for_upload api run =
      (⟨[]⟩, lead_calls l₁ p m₁ ++
        [ApiCall.sample_exists s.sample_name p.id,
          ApiCall.send_sample s.sample_name p.id,
          ApiCall.sample_exists s.sample_name p.id] ++
        (sample_query_calls p.id m₂ ++ l₂.flatMap project_calls)) ∧
    (prepare_and_validate_for_upload api run).1.is_valid = true ∧
    (prepare_and_validate_for_upload api run).2.count
      (ApiCall.sample_exists s.sample_name p.id) = 2 ∧
    (prepare_and_validate_for_upload api run).2.count
      (ApiCall.send_sample s.sample_name p.id) = 1 := by
  have hneid := ne_of_map_nodup_middle Project.id (hrun ▸ hids)
  have hnename := ne_of_map_nodup_middle Sample.sample_name (hsamp ▸ hnames)
  have hcount0 : (lead_calls l₁ p m₁).count
      (ApiCall.sample_exists s.sample_name p.id) = 0 :=
    count_lead_calls_q_zero l₁ p m₁ s.sample_name hneid.1 hnename.1
  have h1 : api.sample_exists (lead_calls l₁ p m₁) s.sample_name p.id =
      false := hfirst _ hcount0
  have hcount1 : (lead_calls l₁ p m₁ ++
      [ApiCall.sample_exists s.sample_name p.id,
        ApiCall.send_sample s.sample_name p.id]).count
      (ApiCall.sample_exists s.sample_name p.id) = 1 := by
    rw [List.count_append, hcount0]
    simp [List.count_cons]
  have h2 : api.sample_exists (lead_calls l₁ p m₁ ++
      [ApiCall.sample_exists s.sample_name p.id,
        ApiCall.send_sample s.sample_name p.id]) s.sample_name p.id = true :=
    hsecond _ hcount1
  have hpre := prepare_with_special_sample api run l₁ l₂ p m₁ m₂ s hrun hsamp
    hids hnames hproj hothers
  rw [validate_sample_eq_recovered api p.id s ⟨lead_calls l₁ p m₁, []⟩ h1 h2]
    at hpre
  have hmain : prepare_and_validate_for_upload api run =
      (⟨[]⟩, lead_calls l₁ p m₁ ++
        [ApiCall.sample_exists s.sample_name p.id,
          ApiCall.send_sample s.sample_name p.id,
          ApiCall.sample_exists s.sample_name p.id] ++
        (sample_query_calls p.id m₂ ++ l₂.flatMap project_calls)) := hpre
  have hq2 : ((lead_calls l₁ p m₁ ++
      [ApiCall.sample_exists s.sample_name p.id,
        ApiCall.send_sample s.sample_name p.id,
        ApiCall.sample_exists s.sample_name p.id]) ++
      (sample_query_calls p.id m₂ ++ l₂.flatMap project_calls)).count
      (ApiCall.sample_exists s.sample_name p.id) = 2 := by
    simp [List.count_append, List.count_cons, hcount0,
      count_sample_query_zero_of_ne p.id p.id m₂ s.sample_name
        (fun t ht hcon => hnename.2 t ht hcon.1),
      count_sample_exists_flatMap_zero l₂ s.sample_name p.id hneid.2]
  have hs1 : ((lead_calls l₁ p m₁ ++
      [ApiCall.sample_exists s.sample_name p.id,
        ApiCall.send_sample s.sample_name p.id,
        ApiCall.sample_exists s.sample_name p.id]) ++
      (sample_query_calls p.id m₂ ++ l₂.flatMap project_calls)).count
      (ApiCall.send_sample s.sample_name p.id) = 1 := by
    simp [List.count_append, List.count_cons, count_lead_calls_send_zero,
      count_send_sample_sqc_zero, count_send_sample_flatMap_zero]
  exact ⟨hmain, by rw [hmain]; rfl, by rw [hmain]; exact hq2,
    by rw [hmain]; exact hs1⟩

/-- C4 witness: the scenario of `test_valid_send_sample` — sample `03-3333`
does not exist on the first query, is sent, and exists on the re-query. -/
theorem prepare_sample_created_on_recheck_witness :
    (prepare_and_validate_for_upload api_sample_recovered fake_run).1.is_valid
      = true ∧
    (prepare_and_validate_for_upload api_sample_recovered fake_run).2.count
      (ApiCall.sample_exists sample_three.sample_name fake_project.id) = 2 ∧
    (prepare_and_validate_for_upload api_sample_recovered fake_run).2.count
      (ApiCall.send_sample sample_three.sample_name fake_project.id) = 1 :=
  have h := prepare_sample_created_on_recheck api_sample_recovered fake_run
    [] [] fake_project [sample_one, sample_two] [] sample_three
    rfl rfl (by decide) (by decide)
    (fun _ _ => rfl)
    (fun _ _ _ hne => if_neg hne)
    (fun tr h0 => by
      have h0' : tr.count (ApiCall.sample_exists "03-3333" "6") = 0 := h0
      rw [List.count_eq_zero] at h0'
      simp [api_sample_recovered, mock_api, sample_three, fake_project, h0'])
    (fun tr h1 => by
      have h1' : tr.count (ApiCall.sample_exists "03-3333" "6") = 1 := h1
      have hmem : ApiCall.sample_exists "03-3333" "6" ∈ tr := by
        by_contra hno
        have hz := List.count_eq_zero.mpr hno
        rw [h1'] at hz
        exact absurd hz one_ne_zero
      simp [api_sample_recovered, mock_api, sample_three, fake_project, hmem])
  ⟨h.2.1, h.2.2.1, h.2.2.2⟩

/-! ## C5: a sample that cannot be created -/

/-- C5: when a sample is absent, is sent, and is still absent on the
re-query (and everything else exists), the validation result is invalid
with exactly one `IridaResourceError` for that sample — collected as a
value in `error_list`, not raised; the sample is still queried twice and
sent once. -/
theorem prepare_sample_send_fails (api : IridaApi)
    (run : SequencingRun) (l₁ l₂ : List Project) (p : Project)
    (m₁ m₂ : List Sample) (s : Sample)
    (hrun : run.project_list = l₁ ++ p :: l₂)
    (hsamp : p.sample_list = m₁ ++ s :: m₂)
    (hids : (run.project_list.map Project.id).Nodup)
    (hnames : (p.sample_list.map Sample.sample_name).Nodup)
    (hproj : ∀ tr pid, api.project_exists tr pid = true)
    (hothers : ∀ tr n pid, ¬(n = s.sample_name ∧ pid = p.id) →
      api.sample_exists tr n pid = true)
    (hnever : ∀ tr, api.sample_exists tr s.sample_name p.id = false) :
    prepare_and_validate_for_upload api run =
      (⟨[UploaderError.iridaResourceError sample_missing_message s.sample_name]⟩,
        lead_calls l₁ p m₁ ++
        [ApiCall.sample_exists s.sample_name p.id,
          ApiCall.send_sample s.sample_name p.id,
          ApiCall.sample_exists s.sample_name p.id] ++
        (sample_query_calls p.id m₂ ++ l₂.flatMap project_calls)) ∧
    (prepare_and_validate_for_upload api run).1.is_valid = false ∧
    (prepare_and_validate_for_upload api run).1.error_count = 1 ∧
    (prepare_and_validate_for_upload api run).2.count
      (ApiCall.sample_exists s.sample_name p.id) = 2 ∧
    (prepare_and_validate_for_upload api run).2.count
      (ApiCall.send_sample s.sample_name p.id) = 1 := by
  have hneid := ne_of_map_nodup_middle Project.id (hrun ▸ hids)
  have hnename := ne_of_map_nodup_middle Sample.sample_name (hsamp ▸ hnames)
  have hcount0 : (lead_calls l₁ p m₁).count
      (ApiCall.sample_exists s.sample_name p.id) = 0 :=
    count_lead_calls_q_zero l₁ p m₁ s.sample_name hneid.1 hnename.1
  have hpre := prepare_with_special_sample api run l₁ l₂ p m₁ m₂ s hrun hsamp
    hids hnames hproj hothers
  rw [validate_sample_eq_failed api p.id s ⟨lead_calls l₁ p m₁, []⟩
    (hnever _) (hnever _)] at hpre
  have hmain : prepare_and_validate_for_upload api run =
      (⟨[UploaderError.iridaResourceError sample_missing_message s.sample_name]⟩,
        lead_calls l₁ p m₁ ++
        [ApiCall.sample_exists s.sample_name p.id,
          ApiCall.send_sample s.sample_name p.id,
          ApiCall.sample_exists s.sample_name p.id] ++
        (sample_query_calls p.id m₂ ++ l₂.flatMap project_calls)) := hpre
  have hq2 : ((lead_calls l₁ p m₁ ++
      [ApiCall.sample_exists s.sample_name p.id,
        ApiCall.send_sample s.sample_name p.id,
        ApiCall.sample_exists s.sample_name p.id]) ++
      (sample_query_calls p.id m₂ ++ l₂.flatMap project_calls)).count
      (ApiCall.sample_exists s.sample_name p.id) = 2 := by
    simp [List.count_append, List.count_cons, hcount0,
      count_sample_query_zero_of_ne p.id p.id m₂ s.sample_name
        (fun t ht hcon => hnename.2 t ht hcon.1),
      count_sample_exists_flatMap_zero l₂ s.sample_name p.id hneid.2]
  have hs1 : ((lead_calls l₁ p m₁ ++
      [ApiCall.sample_exists s.sample_name p.id,
        ApiCall.send_sample s.sample_name p.id,
        ApiCall.sample_exists s.sample_name p.id]) ++
      (sample_query_calls p.id m₂ ++ l₂.flatMap project_calls)).count
      (ApiCall.send_sample s.sample_name p.id) = 1 := by
    simp [List.count_append, List.count_cons, count_lead_calls_send_zero,
      count_send_sample_sqc_zero, count_send_sample_flatMap_zero]
  exact ⟨hmain, by rw [hmain]; rfl, by rw [hmain]; rfl,
    by rw [hmain]; exact hq2, by rw [hmain]; exact hs1⟩

/-- C5 witness: the scenario of `test_invalid_could_not_send_sample` —
sample `03-3333` never exists, even after the send. -/
theorem prepare_sample_send_fails_witness :
    prepare_and_validate_for_upload api_sample_never fake_run =
      (⟨[UploaderError.iridaResourceError sample_missing_message
          sample_three.sample_name]⟩,
        lead_calls [] fake_project [sample_one, sample_two] ++
        [ApiCall.sample_exists sample_three.sample_name fake_project.id,
          ApiCall.send_sample sample_three.sample_name fake_project.id,
          ApiCall.sample_exists sample_three.sample_name fake_project.id] ++
        (sample_query_calls fake_project.id [] ++
          ([] : List Project).flatMap project_calls)) ∧
    (prepare_and_validate_for_upload api_sample_never fake_run).1.is_valid
      = false ∧
    (prepare_and_validate_for_upload api_sample_never fake_run).1.error_count
      = 1 :=
  have h := prepare_sample_send_fails api_sample_never fake_run
    [] [] fake_project [sample_one, sample_two] [] sample_three
    rfl rfl (by decide) (by decide)
    (fun _ _ => rfl)
    (fun _ _ _ hne => if_neg hne)
    (fun tr => by simp [api_sample_never, mock_api, sample_three, fake_project])
  ⟨h.1, h.2.1, h.2.2.1⟩
